import Mathlib

/-!
# Verification of the queue state manager in `src/context/QueueContext.tsx`

This file gives a shallow embedding of the queue-ticketing state manager of
the repository (the `QueueProvider` React context) and proves properties of
its operations.

Modelling conventions:
* Instants (`Date.now()` / `new Date()`) are natural numbers; each mutating
  operation that reads the clock takes the current instant `now` as an
  explicit argument.  A ticket id `` `${serviceType}-${Date.now()}` `` becomes
  `serviceType ++ "-" ++ toString now`.
* `JavaScript` numbers that are only ever nonnegative integers here
  (counter ids, counts, sequence numbers) are `Nat`; the values returned by
  sort comparators are `Int`.
* Optional / possibly-`undefined` fields are `Option`.
* `Array.prototype.sort` (stable per ES2019) is modelled as a stable
  insertion sort `sortLe` that keeps the earlier element first whenever the
  comparator returns a value `≤ 0`.
* React state updates of one handler (`setQueue`, `setServices`,
  `setCounters`) are combined into one pure state transformation; the
  `useEffect` that recomputes the cached `waiting` counts is modelled as the
  separate function `recomputeWaiting`, applied when a mutation "settles".
-/

set_option maxHeartbeats 1000000

namespace QueueApp

/-- Lifecycle status of a queue ticket (`"waiting" | "serving" | "completed"`). -/
inductive TicketStatus where
  | waiting
  | serving
  | completed
  deriving DecidableEq

/-- Ticket priority (`"normal" | "urgent" | "vip"`). -/
inductive Priority where
  | normal
  | urgent
  | vip
  deriving DecidableEq

/-- Counter status (`"active" | "inactive"`). -/
inductive CounterStatus where
  | active
  | inactive
  deriving DecidableEq

/-- The source's `ServiceType` record.  The source field `prefix` is called
`pfx` here because `prefix` is a reserved word in Lean. -/
structure ServiceType where
  id : String
  name : String
  pfx : String
  currentNumber : Nat
  served : Nat
  waiting : Nat
  deriving DecidableEq

/-- The source's `Counter` record. -/
structure Counter where
  id : Nat
  name : String
  status : CounterStatus
  currentlyServing : Option String
  serviceType : Option String
  deriving DecidableEq

/-- The source's `QueueTicket` record. -/
structure QueueTicket where
  id : String
  number : String
  serviceType : String
  status : TicketStatus
  timestamp : Nat
  counterAssigned : Option Nat
  customerName : Option String
  purpose : Option String
  priority : Priority
  estimatedWaitTime : Option Nat
  calledAt : Option Nat
  completedAt : Option Nat
  notes : Option String
  deriving DecidableEq

/-- The three state collections held by `QueueProvider`. -/
structure QueueState where
  services : List ServiceType
  counters : List Counter
  queue : List QueueTicket
  deriving DecidableEq

/-- The map `priorityOrder = { vip: 3, urgent: 2, normal: 1 }` used by both sort
comparators. -/
def priorityOrder : Priority → Int
  | .vip => 3
  | .urgent => 2
  | .normal => 1

/-- The comparator used inside `callNext` (priority descending, then
timestamp ascending); it is also the body of the `addToQueue` comparator for
two `waiting` tickets. -/
def callCompare (a b : QueueTicket) : Int :=
  if priorityOrder a.priority ≠ priorityOrder b.priority then
    priorityOrder b.priority - priorityOrder a.priority
  else
    (a.timestamp : Int) - (b.timestamp : Int)

/-- The comparator used by the sort in `addToQueue`: any pair involving a
non-`waiting` ticket compares equal (`return 0`), otherwise priority
descending then timestamp ascending. -/
def queueCompare (a b : QueueTicket) : Int :=
  if a.status ≠ TicketStatus.waiting ∨ b.status ≠ TicketStatus.waiting then 0
  else callCompare a b

/-- The comparator of `getTicketPosition` and `getAllWaitingTickets`:
timestamp ascending only. -/
def tsCompare (a b : QueueTicket) : Int :=
  (a.timestamp : Int) - (b.timestamp : Int)

/-- Stable insertion: `x` (the element that occurred earlier in the original
array) is placed before the first element `b` with `le x b`; elements that
compare equal therefore keep their original relative order. -/
def insertLe {α : Type} (le : α → α → Bool) (x : α) : List α → List α
  | [] => [x]
  | b :: l => if le x b then x :: b :: l else b :: insertLe le x l

/-- Stable insertion sort used to model `Array.prototype.sort`. -/
def sortLe {α : Type} (le : α → α → Bool) : List α → List α
  | [] => []
  | a :: l => insertLe le a (sortLe le l)

/-- Model of `l.sort(cmp)` for a JavaScript three-way comparator `cmp`: a
stable sort that keeps the earlier element first when `cmp` returns `≤ 0`. -/
def sortJS (cmp : QueueTicket → QueueTicket → Int) (l : List QueueTicket) : List QueueTicket :=
  sortLe (fun a b => decide (cmp a b ≤ 0)) l

/-- Implementation of `getWaitingCount`: number of queue entries with the given service type
and status `waiting`. -/
def getWaitingCount (serviceType : String) (st : QueueState) : Nat :=
  (st.queue.filter (fun t => t.serviceType == serviceType && t.status == TicketStatus.waiting)).length

/-- Model of `String.prototype.padStart(3, '0')`. -/
def padStart3 (s : String) : String :=
  if s.length < 3 then String.mk (List.replicate (3 - s.length) '0') ++ s else s

/-- The constant `avgServiceTime = 5` minutes per service. -/
def avgServiceTime : Nat := 5

/-- Implementation of `addToQueue(serviceType, customerName?, purpose?, priority = "normal")`.
Returns the issued ticket number (`""` when the service is unknown) and the
state after the handler's `setQueue`/`setServices` updates. -/
def addToQueue (serviceType : String) (customerName purpose : Option String)
    (priority : Priority) (now : Nat) (st : QueueState) : String × QueueState :=
  match st.services.find? (fun s => s.id == serviceType) with
  | none => ("", st)
  | some service =>
    let newNumber := service.currentNumber + 1
    let ticketNumber := service.pfx ++ padStart3 (toString newNumber)
    let waitingCount := getWaitingCount serviceType st
    let estimatedWait := waitingCount * avgServiceTime
    let newTicket : QueueTicket :=
      { id := serviceType ++ "-" ++ toString now,
        number := ticketNumber,
        serviceType := serviceType,
        status := TicketStatus.waiting,
        timestamp := now,
        counterAssigned := none,
        customerName := customerName,
        purpose := purpose,
        priority := priority,
        estimatedWaitTime := some estimatedWait,
        calledAt := none,
        completedAt := none,
        notes := none }
    let newQueue := sortJS queueCompare (st.queue ++ [newTicket])
    let newServices := st.services.map (fun s =>
      if s.id == serviceType then { s with currentNumber := newNumber } else s)
    (ticketNumber, { st with queue := newQueue, services := newServices })

/-- Implementation of `callNext(counterId, serviceType)`: returns the assigned ticket (or
`none`) together with the state after the updates. -/
def callNext (counterId : Nat) (serviceType : String) (now : Nat) (st : QueueState) :
    Option QueueTicket × QueueState :=
  match sortJS callCompare
      (st.queue.filter (fun t => t.serviceType == serviceType && t.status == TicketStatus.waiting)) with
  | [] => (none, st)
  | nextTicket :: _ =>
    match st.counters.find? (fun c => c.id == counterId) with
    | none => (none, st)
    | some counter =>
      if counter.status ≠ CounterStatus.active then (none, st)
      else
        let newQueue := st.queue.map (fun t =>
          if t.id == nextTicket.id then
            { t with status := TicketStatus.serving,
                     counterAssigned := some counterId,
                     calledAt := some now }
          else t)
        let newCounters := st.counters.map (fun c =>
          if c.id == counterId then { c with currentlyServing := some nextTicket.number } else c)
        (some nextTicket, { st with queue := newQueue, counters := newCounters })

/-- Truthiness of `ticket.counterAssigned` in the JavaScript test
`if (ticket.counterAssigned)`: `undefined` and `0` are both falsy. -/
def truthyCounterId : Option Nat → Bool
  | none => false
  | some n => n != 0

/-- Implementation of `completeService(ticketId, notes?)`. -/
def completeService (ticketId : String) (notes : Option String) (now : Nat)
    (st : QueueState) : QueueState :=
  match st.queue.find? (fun t => t.id == ticketId) with
  | none => st
  | some ticket =>
    if ticket.status ≠ TicketStatus.serving then st
    else
      let newQueue := st.queue.map (fun t =>
        if t.id == ticketId then
          { t with status := TicketStatus.completed, completedAt := some now, notes := notes }
        else t)
      if truthyCounterId ticket.counterAssigned then
        let newCounters := st.counters.map (fun c =>
          if ticket.counterAssigned == some c.id then { c with currentlyServing := none } else c)
        let newServices := st.services.map (fun s =>
          if s.id == ticket.serviceType then { s with served := s.served + 1 } else s)
        { st with queue := newQueue, counters := newCounters, services := newServices }
      else
        { st with queue := newQueue }

/-- Implementation of `setCounterStatus(counterId, status)`. -/
def setCounterStatus (counterId : Nat) (status : CounterStatus) (st : QueueState) : QueueState :=
  { st with counters := st.counters.map (fun c =>
      if c.id == counterId then { c with status := status } else c) }

/-- Implementation of `setCounterService(counterId, serviceType)`. -/
def setCounterService (counterId : Nat) (serviceType : Option String) (st : QueueState) : QueueState :=
  { st with counters := st.counters.map (fun c =>
      if c.id == counterId then { c with serviceType := serviceType } else c) }

/-- Implementation of `getTicketPosition(ticketId)`: `none` if the ticket is absent or not
`waiting`; otherwise `findIndex` in the timestamp-sorted list of waiting
tickets of the same service, plus one. -/
def getTicketPosition (ticketId : String) (st : QueueState) : Option Nat :=
  match st.queue.find? (fun t => t.id == ticketId) with
  | none => none
  | some ticket =>
    if ticket.status ≠ TicketStatus.waiting then none
    else
      let waitingTickets := sortJS tsCompare
        (st.queue.filter (fun t =>
          t.serviceType == ticket.serviceType && t.status == TicketStatus.waiting))
      some (waitingTickets.findIdx (fun t => t.id == ticketId) + 1)

/-- Implementation of `getAllWaitingTickets()`: all waiting tickets, sorted by timestamp
ascending. -/
def getAllWaitingTickets (st : QueueState) : List QueueTicket :=
  sortJS tsCompare (st.queue.filter (fun t => t.status == TicketStatus.waiting))

/-- Implementation of `getServiceByPrefix(prefix)`. -/
def getServiceByPrefix (p : String) (st : QueueState) : Option ServiceType :=
  st.services.find? (fun s => s.pfx == p)

/-- Implementation of `getTicketById(ticketId)`. -/
def getTicketById (ticketId : String) (st : QueueState) : Option QueueTicket :=
  st.queue.find? (fun t => t.id == ticketId)

/-- Implementation of `getEstimatedWaitTime(serviceType)`. -/
def getEstimatedWaitTime (serviceType : String) (st : QueueState) : Nat :=
  getWaitingCount serviceType st * avgServiceTime

/-- A `Partial<QueueTicket>` argument of `updateTicket`: `none` means the
field is not present in the update object. -/
structure TicketPatch where
  id : Option String
  number : Option String
  serviceType : Option String
  status : Option TicketStatus
  timestamp : Option Nat
  counterAssigned : Option (Option Nat)
  customerName : Option (Option String)
  purpose : Option (Option String)
  priority : Option Priority
  estimatedWaitTime : Option (Option Nat)
  calledAt : Option (Option Nat)
  completedAt : Option (Option Nat)
  notes : Option (Option String)
  deriving DecidableEq

/-- The spread `{ ...ticket, ...updates }`. -/
def applyPatch (p : TicketPatch) (t : QueueTicket) : QueueTicket :=
  { id := p.id.getD t.id,
    number := p.number.getD t.number,
    serviceType := p.serviceType.getD t.serviceType,
    status := p.status.getD t.status,
    timestamp := p.timestamp.getD t.timestamp,
    counterAssigned := p.counterAssigned.getD t.counterAssigned,
    customerName := p.customerName.getD t.customerName,
    purpose := p.purpose.getD t.purpose,
    priority := p.priority.getD t.priority,
    estimatedWaitTime := p.estimatedWaitTime.getD t.estimatedWaitTime,
    calledAt := p.calledAt.getD t.calledAt,
    completedAt := p.completedAt.getD t.completedAt,
    notes := p.notes.getD t.notes }

/-- Implementation of `updateTicket(ticketId, updates)`. -/
def updateTicket (ticketId : String) (p : TicketPatch) (st : QueueState) : QueueState :=
  { st with queue := st.queue.map (fun t => if t.id == ticketId then applyPatch p t else t) }

/-- The seeded default services (`general`, prefix `A`; `facility`, prefix
`D`), used both as the initial state and by `clearAllData`. -/
def seededServices : List ServiceType :=
  [{ id := "general", name := "Pelayanan Umum", pfx := "A",
     currentNumber := 0, served := 0, waiting := 0 },
   { id := "facility", name := "Fasilitas", pfx := "D",
     currentNumber := 0, served := 0, waiting := 0 }]

/-- The seeded default counters (1 and 2 active, 3 and 4 inactive). -/
def seededCounters : List Counter :=
  [{ id := 1, name := "Counter 1", status := CounterStatus.active,
     currentlyServing := none, serviceType := none },
   { id := 2, name := "Counter 2", status := CounterStatus.active,
     currentlyServing := none, serviceType := none },
   { id := 3, name := "Counter 3", status := CounterStatus.inactive,
     currentlyServing := none, serviceType := none },
   { id := 4, name := "Counter 4", status := CounterStatus.inactive,
     currentlyServing := none, serviceType := none }]

/-- The state at first run (no stored data): seeded services and counters,
empty queue. -/
def seededState : QueueState :=
  { services := seededServices, counters := seededCounters, queue := [] }

/-- Implementation of `clearAllData()`: reset to the seed values and empty queue. -/
def clearAllData (_st : QueueState) : QueueState := seededState

/-- The `useEffect` that recomputes the cached per-service `waiting` counts
from the queue, updating the services only if some count changed. -/
def recomputeWaiting (st : QueueState) : QueueState :=
  let updatedServices := st.services.map (fun s =>
    { s with waiting := (st.queue.filter (fun t =>
        t.serviceType == s.id && t.status == TicketStatus.waiting)).length })
  let hasChanged := (st.services.zip updatedServices).any (fun p => p.1.waiting != p.2.waiting)
  if hasChanged then { st with services := updatedServices } else st

/-- One operation of the public mutating interface. -/
inductive Op where
  | add (serviceType : String) (customerName purpose : Option String)
        (priority : Priority) (now : Nat)
  | call (counterId : Nat) (serviceType : String) (now : Nat)
  | complete (ticketId : String) (notes : Option String) (now : Nat)
  | setStatus (counterId : Nat) (status : CounterStatus)
  | setService (counterId : Nat) (serviceType : Option String)
  | update (ticketId : String) (patch : TicketPatch)
  | clear
  deriving DecidableEq

/-- Apply one public operation to the state (discarding return values). -/
def applyOp : Op → QueueState → QueueState
  | .add serviceType customerName purpose priority now, st =>
      (addToQueue serviceType customerName purpose priority now st).2
  | .call counterId serviceType now, st => (callNext counterId serviceType now st).2
  | .complete ticketId notes now, st => completeService ticketId notes now st
  | .setStatus counterId status, st => setCounterStatus counterId status st
  | .setService counterId serviceType, st => setCounterService counterId serviceType st
  | .update ticketId p, st => updateTicket ticketId p st
  | .clear, st => clearAllData st

/-- One `addToQueue` request (arguments plus the clock reading). -/
structure AddReq where
  serviceType : String
  customerName : Option String
  purpose : Option String
  priority : Priority
  now : Nat
  deriving DecidableEq

/-- Run a sequence of `addToQueue` calls. -/
def runAdds (reqs : List AddReq) (st : QueueState) : QueueState :=
  reqs.foldl (fun s r => (addToQueue r.serviceType r.customerName r.purpose r.priority r.now s).2) st

/-! ### Facts about the sort model -/

/-- The Boolean relation "the comparator returns a value `≤ 0`". -/
def cmpLe (cmp : QueueTicket → QueueTicket → Int) (a b : QueueTicket) : Bool :=
  decide (cmp a b ≤ 0)

theorem sortJS_eq_sortLe (cmp : QueueTicket → QueueTicket → Int) (l : List QueueTicket) :
    sortJS cmp l = sortLe (cmpLe cmp) l := rfl

theorem insertLe_perm {α : Type} (le : α → α → Bool) (x : α) (l : List α) :
    (insertLe le x l).Perm (x :: l) := by
  induction l with
  | nil => exact List.Perm.refl _
  | cons b l ih =>
    simp only [insertLe]
    split
    · exact List.Perm.refl _
    · exact (ih.cons b).trans (List.Perm.swap x b l)

theorem sortLe_perm {α : Type} (le : α → α → Bool) (l : List α) :
    (sortLe le l).Perm l := by
  induction l with
  | nil => exact List.Perm.refl _
  | cons a l ih =>
    simp only [sortLe]
    exact (insertLe_perm le a _).trans (ih.cons a)

theorem mem_sortLe {α : Type} (le : α → α → Bool) (a : α) (l : List α) :
    a ∈ sortLe le l ↔ a ∈ l :=
  (sortLe_perm le l).mem_iff

theorem pairwise_insertLe {α : Type} {le : α → α → Bool}
    (htot : ∀ a b, le a b = true ∨ le b a = true)
    (htrans : ∀ a b c, le a b = true → le b c = true → le a c = true)
    {x : α} {l : List α} (h : l.Pairwise (fun a b => le a b = true)) :
    (insertLe le x l).Pairwise (fun a b => le a b = true) := by
  induction l with
  | nil => simp [insertLe]
  | cons b l ih =>
    rcases List.pairwise_cons.mp h with ⟨hb, hl⟩
    simp only [insertLe]
    split
    · rename_i hxb
      refine List.pairwise_cons.mpr ⟨?_, h⟩
      intro y hy
      rcases List.mem_cons.mp hy with rfl | hy
      · exact hxb
      · exact htrans x b y hxb (hb y hy)
    · rename_i hxb
      have hbx : le b x = true := by
        rcases htot x b with h' | h'
        · exact absurd h' hxb
        · exact h'
      refine List.pairwise_cons.mpr ⟨?_, ih hl⟩
      intro y hy
      rcases List.mem_cons.mp ((insertLe_perm le x l).mem_iff.mp hy) with rfl | hyl
      · exact hbx
      · exact hb y hyl

theorem pairwise_sortLe {α : Type} {le : α → α → Bool}
    (htot : ∀ a b, le a b = true ∨ le b a = true)
    (htrans : ∀ a b c, le a b = true → le b c = true → le a c = true)
    (l : List α) :
    (sortLe le l).Pairwise (fun a b => le a b = true) := by
  induction l with
  | nil => simp [sortLe]
  | cons a l ih =>
    simp only [sortLe]
    exact pairwise_insertLe htot htrans ih

theorem sortLe_head_min {α : Type} {le : α → α → Bool}
    (htot : ∀ a b, le a b = true ∨ le b a = true)
    (htrans : ∀ a b c, le a b = true → le b c = true → le a c = true)
    (hrefl : ∀ a, le a a = true)
    {l : List α} {h : α} {rest : List α} (he : sortLe le l = h :: rest) :
    ∀ t ∈ l, le h t = true := by
  intro t ht
  have hp := @pairwise_sortLe α le htot htrans l
  rw [he] at hp
  have htm : t ∈ h :: rest := by
    rw [← he]
    exact (sortLe_perm le l).mem_iff.mpr ht
  rcases List.mem_cons.mp htm with rfl | htr
  · exact hrefl t
  · exact (List.pairwise_cons.mp hp).1 t htr

theorem insertLe_congr {α : Type} {le₁ le₂ : α → α → Bool} {P : α → Prop}
    (hagree : ∀ a b, P a → P b → le₁ a b = le₂ a b)
    {x : α} {l : List α} (hx : P x) (hl : ∀ b ∈ l, P b) :
    insertLe le₁ x l = insertLe le₂ x l := by
  induction l with
  | nil => rfl
  | cons b l ih =>
    simp only [insertLe]
    rw [hagree x b hx (hl b (by simp))]
    split
    · rfl
    · rw [ih (fun c hc => hl c (by simp [hc]))]

theorem sortLe_congr {α : Type} {le₁ le₂ : α → α → Bool} {P : α → Prop}
    (hagree : ∀ a b, P a → P b → le₁ a b = le₂ a b)
    {l : List α} (hl : ∀ b ∈ l, P b) :
    sortLe le₁ l = sortLe le₂ l := by
  induction l with
  | nil => rfl
  | cons a l ih =>
    simp only [sortLe]
    rw [ih (fun c hc => hl c (by simp [hc]))]
    exact insertLe_congr hagree (hl a (by simp))
      (fun b hb => hl b (List.mem_cons_of_mem _ ((sortLe_perm le₂ l).mem_iff.mp hb)))

theorem filter_insertLe {α : Type} {le : α → α → Bool} {p : α → Bool}
    (hp : ∀ x b, p x = true → le x b = true) (x : α) (l : List α) :
    (insertLe le x l).filter p = if p x then x :: l.filter p else l.filter p := by
  induction l with
  | nil => cases hx : p x <;> simp [insertLe, hx]
  | cons b l ih =>
    simp only [insertLe]
    cases hle : le x b with
    | true =>
      simp only [if_true, List.filter_cons]
    | false =>
      simp only [Bool.false_eq_true, if_false, List.filter_cons, ih]
      by_cases hx : p x = true
      · exact absurd (hp x b hx) (by simp [hle])
      · simp [hx]

theorem filter_sortLe {α : Type} {le : α → α → Bool} {p : α → Bool}
    (hp : ∀ x b, p x = true → le x b = true) (l : List α) :
    (sortLe le l).filter p = l.filter p := by
  induction l with
  | nil => rfl
  | cons a l ih =>
    simp only [sortLe]
    rw [filter_insertLe hp, ih, List.filter_cons]

/-! ### Facts about the three comparators -/

theorem callCmpLe_iff (a b : QueueTicket) :
    cmpLe callCompare a b = true ↔
      (priorityOrder b.priority < priorityOrder a.priority ∨
        (priorityOrder a.priority = priorityOrder b.priority ∧ a.timestamp ≤ b.timestamp)) := by
  simp only [cmpLe, callCompare, decide_eq_true_eq]
  split
  · rename_i h
    omega
  · rename_i h
    rw [not_ne_iff] at h
    omega

theorem callCmpLe_total (a b : QueueTicket) :
    cmpLe callCompare a b = true ∨ cmpLe callCompare b a = true := by
  rw [callCmpLe_iff, callCmpLe_iff]
  omega

theorem callCmpLe_trans (a b c : QueueTicket) :
    cmpLe callCompare a b = true → cmpLe callCompare b c = true →
    cmpLe callCompare a c = true := by
  rw [callCmpLe_iff, callCmpLe_iff, callCmpLe_iff]
  omega

theorem callCmpLe_refl (a : QueueTicket) : cmpLe callCompare a a = true := by
  rw [callCmpLe_iff]
  omega

theorem tsCmpLe_iff (a b : QueueTicket) :
    cmpLe tsCompare a b = true ↔ a.timestamp ≤ b.timestamp := by
  simp only [cmpLe, tsCompare, decide_eq_true_eq]
  omega

theorem tsCmpLe_total (a b : QueueTicket) :
    cmpLe tsCompare a b = true ∨ cmpLe tsCompare b a = true := by
  rw [tsCmpLe_iff, tsCmpLe_iff]
  omega

theorem tsCmpLe_trans (a b c : QueueTicket) :
    cmpLe tsCompare a b = true → cmpLe tsCompare b c = true → cmpLe tsCompare a c = true := by
  rw [tsCmpLe_iff, tsCmpLe_iff, tsCmpLe_iff]
  omega

theorem queueCmpLe_eq_callCmpLe {a b : QueueTicket}
    (ha : a.status = TicketStatus.waiting) (hb : b.status = TicketStatus.waiting) :
    cmpLe queueCompare a b = cmpLe callCompare a b := by
  simp [cmpLe, queueCompare, ha, hb]

theorem queueCmpLe_of_nonwaiting {a : QueueTicket}
    (h : (a.status != TicketStatus.waiting) = true) (b : QueueTicket) :
    cmpLe queueCompare a b = true := by
  have h' : a.status ≠ TicketStatus.waiting := by simpa using h
  simp [cmpLe, queueCompare, h']

/-! ### Unfolding lemmas for addToQueue -/

theorem addToQueue_none {s : String} {cn pp : Option String} {pr : Priority} {now : Nat}
    {st : QueueState} (h : st.services.find? (fun x => x.id == s) = none) :
    addToQueue s cn pp pr now st = ("", st) := by
  unfold addToQueue
  rw [h]

theorem addToQueue_some {s : String} {cn pp : Option String} {pr : Priority} {now : Nat}
    {st : QueueState} {sv : ServiceType}
    (h : st.services.find? (fun x => x.id == s) = some sv) :
    addToQueue s cn pp pr now st =
      (sv.pfx ++ padStart3 (toString (sv.currentNumber + 1)),
       { st with
          queue := sortJS queueCompare (st.queue ++
            [{ id := s ++ "-" ++ toString now,
               number := sv.pfx ++ padStart3 (toString (sv.currentNumber + 1)),
               serviceType := s,
               status := TicketStatus.waiting,
               timestamp := now,
               counterAssigned := none,
               customerName := cn,
               purpose := pp,
               priority := pr,
               estimatedWaitTime := some (getWaitingCount s st * avgServiceTime),
               calledAt := none,
               completedAt := none,
               notes := none }]),
          services := st.services.map (fun x =>
            if x.id == s then { x with currentNumber := sv.currentNumber + 1 } else x) }) := by
  unfold addToQueue
  rw [h]

/-! ### The queue invariant maintained by addToQueue -/

/-- All tickets in the list have status `waiting`. -/
def allWaiting (l : List QueueTicket) : Prop := ∀ t ∈ l, t.status = TicketStatus.waiting

/-- On an all-`waiting` list the guarded `addToQueue` comparator behaves as
the plain priority/timestamp comparator. -/
theorem sortJS_queueCompare_of_allWaiting {l : List QueueTicket} (hall : allWaiting l) :
    sortJS queueCompare l = sortLe (cmpLe callCompare) l := by
  rw [sortJS_eq_sortLe]
  exact @sortLe_congr QueueTicket (cmpLe queueCompare) (cmpLe callCompare)
    (fun t => t.status = TicketStatus.waiting)
    (fun a b ha hb => queueCmpLe_eq_callCmpLe ha hb) l (fun b hb => hall b hb)

theorem addToQueue_invariant (s : String) (cn pp : Option String) (pr : Priority) (now : Nat)
    (st : QueueState) (hw : allWaiting st.queue)
    (hs : st.queue.Pairwise (fun a b => cmpLe callCompare a b = true)) :
    allWaiting (addToQueue s cn pp pr now st).2.queue
    ∧ ((addToQueue s cn pp pr now st).2.queue).Pairwise
        (fun a b => cmpLe callCompare a b = true) := by
  cases h : st.services.find? (fun x => x.id == s) with
  | none =>
    rw [addToQueue_none h]
    exact ⟨hw, hs⟩
  | some sv =>
    rw [addToQueue_some h]
    dsimp only
    have hall : allWaiting (st.queue ++
        [{ id := s ++ "-" ++ toString now,
           number := sv.pfx ++ padStart3 (toString (sv.currentNumber + 1)),
           serviceType := s,
           status := TicketStatus.waiting,
           timestamp := now,
           counterAssigned := none,
           customerName := cn,
           purpose := pp,
           priority := pr,
           estimatedWaitTime := some (getWaitingCount s st * avgServiceTime),
           calledAt := none,
           completedAt := none,
           notes := none }]) := by
      intro t ht
      rcases List.mem_append.mp ht with h1 | h2
      · exact hw t h1
      · simp only [List.mem_singleton] at h2
        subst h2
        rfl
    rw [sortJS_queueCompare_of_allWaiting hall]
    constructor
    · intro t ht
      exact hall t ((sortLe_perm _ _).mem_iff.mp ht)
    · exact pairwise_sortLe callCmpLe_total callCmpLe_trans _

theorem runAdds_invariant (reqs : List AddReq) (st : QueueState)
    (hw : allWaiting st.queue)
    (hs : st.queue.Pairwise (fun a b => cmpLe callCompare a b = true)) :
    allWaiting (runAdds reqs st).queue
    ∧ ((runAdds reqs st).queue).Pairwise (fun a b => cmpLe callCompare a b = true) := by
  induction reqs generalizing st with
  | nil => exact ⟨hw, hs⟩
  | cons r reqs ih =>
    simp only [runAdds, List.foldl_cons]
    have h := addToQueue_invariant r.serviceType r.customerName r.purpose r.priority r.now st hw hs
    exact ih _ h.1 h.2

theorem addToQueue_nonwaiting_stable (s : String) (cn pp : Option String) (pr : Priority)
    (now : Nat) (st : QueueState) :
    (addToQueue s cn pp pr now st).2.queue.filter (fun t => t.status != TicketStatus.waiting) =
      st.queue.filter (fun t => t.status != TicketStatus.waiting) := by
  cases h : st.services.find? (fun x => x.id == s) with
  | none => rw [addToQueue_none h]
  | some sv =>
    rw [addToQueue_some h]
    dsimp only
    rw [sortJS_eq_sortLe,
      filter_sortLe (fun x b hx => queueCmpLe_of_nonwaiting hx b),
      List.filter_append]
    simp [List.filter]

/-! ### Claim C1 -/

/-- C1: for every sequence of `addToQueue` calls starting from the seeded
state and every service, the subsequence of queue tickets with that service
type and status `waiting` is sorted by priority descending (vip > urgent >
normal) with ties broken by ascending creation timestamp; and the re-sort
performed by `addToQueue` leaves the tickets whose status is not `waiting`
in their previous relative positions (their subsequence is unchanged). -/
theorem C1_waiting_order :
    (∀ (reqs : List AddReq) (s : String),
        ((runAdds reqs seededState).queue.filter
            (fun t => t.serviceType == s && t.status == TicketStatus.waiting)).Pairwise
          (fun a b => priorityOrder b.priority < priorityOrder a.priority ∨
            (priorityOrder a.priority = priorityOrder b.priority ∧ a.timestamp ≤ b.timestamp)))
    ∧ (∀ (s : String) (cn pp : Option String) (pr : Priority) (now : Nat) (st : QueueState),
        (addToQueue s cn pp pr now st).2.queue.filter
            (fun t => t.status != TicketStatus.waiting) =
          st.queue.filter (fun t => t.status != TicketStatus.waiting)) := by
  constructor
  · intro reqs s
    have h := runAdds_invariant reqs seededState
      (fun t ht => absurd ht (List.not_mem_nil t)) List.Pairwise.nil
    exact (List.Pairwise.sublist (List.filter_sublist _) h.2).imp
      (fun hab => (callCmpLe_iff _ _).mp hab)
  · exact addToQueue_nonwaiting_stable

/-! ### Claim C5: the concrete Alice/Bob scenario -/

/-- The call `addToQueue("general", "Alice", "renew ID", "normal")` at instant 1 from
the seeded state. -/
def aliceCall : String × QueueState :=
  addToQueue "general" (some "Alice") (some "renew ID") Priority.normal 1 seededState

/-- The call `addToQueue("general", "Bob", "complaint", "vip")` at instant 2, after
Alice's call. -/
def bobCall : String × QueueState :=
  addToQueue "general" (some "Bob") (some "complaint") Priority.vip 2 aliceCall.2

/-- C5 counterexample: in the Alice-then-Bob scenario, `getAllWaitingTickets`
(which sorts by creation timestamp only) returns Alice's ticket
`general-1` before Bob's ticket `general-2`, so Bob's ticket is *not*
ordered before Alice's in its result, contrary to the claim. -/
theorem C5_counterexample :
    ((getAllWaitingTickets bobCall.2).map (fun t => t.id) = ["general-1", "general-2"])
    ∧ ¬ (((getAllWaitingTickets bobCall.2).map (fun t => t.id)).findIdx
            (fun x => x == "general-2") <
          ((getAllWaitingTickets bobCall.2).map (fun t => t.id)).findIdx
            (fun x => x == "general-1")) := by
  decide

/-- C5 (amended): in the Alice-then-Bob scenario Alice's call returns
"A001", Bob's returns "A002", `getWaitingCount "general" = 2`, Bob's vip
ticket is ordered before Alice's in the internal queue (the order used for
calling, as witnessed by `callNext` selecting Bob's ticket "A002"), while
`getAllWaitingTickets` — which sorts by timestamp only — returns Alice's
ticket before Bob's. -/
theorem C5_amended_scenario :
    aliceCall.1 = "A001"
    ∧ bobCall.1 = "A002"
    ∧ getWaitingCount "general" bobCall.2 = 2
    ∧ bobCall.2.queue.map (fun t => t.id) = ["general-2", "general-1"]
    ∧ (getAllWaitingTickets bobCall.2).map (fun t => t.id) = ["general-1", "general-2"]
    ∧ ((callNext 1 "general" 3 bobCall.2).1.map (fun t => t.number)) = some "A002" := by
  decide

/-! ### Unfolding lemmas for callNext -/

theorem callNext_no_waiting {cid : Nat} {s : String} {now : Nat} {st : QueueState}
    (h : st.queue.filter (fun t => t.serviceType == s && t.status == TicketStatus.waiting) = []) :
    callNext cid s now st = (none, st) := by
  unfold callNext
  rw [h]
  rfl

theorem callNext_counter_missing {cid : Nat} {s : String} {now : Nat} {st : QueueState}
    {sel : QueueTicket} {rest : List QueueTicket}
    (hs : sortJS callCompare (st.queue.filter
        (fun t => t.serviceType == s && t.status == TicketStatus.waiting)) = sel :: rest)
    (hc : st.counters.find? (fun c => c.id == cid) = none) :
    callNext cid s now st = (none, st) := by
  unfold callNext
  rw [hs, hc]

theorem callNext_counter_inactive {cid : Nat} {s : String} {now : Nat} {st : QueueState}
    {sel : QueueTicket} {rest : List QueueTicket} {ctr : Counter}
    (hs : sortJS callCompare (st.queue.filter
        (fun t => t.serviceType == s && t.status == TicketStatus.waiting)) = sel :: rest)
    (hc : st.counters.find? (fun c => c.id == cid) = some ctr)
    (ha : ctr.status ≠ CounterStatus.active) :
    callNext cid s now st = (none, st) := by
  unfold callNext
  rw [hs, hc]
  dsimp only
  rw [if_pos ha]

theorem callNext_success {cid : Nat} {s : String} {now : Nat} {st : QueueState}
    {sel : QueueTicket} {rest : List QueueTicket} {ctr : Counter}
    (hs : sortJS callCompare (st.queue.filter
        (fun t => t.serviceType == s && t.status == TicketStatus.waiting)) = sel :: rest)
    (hc : st.counters.find? (fun c => c.id == cid) = some ctr)
    (ha : ctr.status = CounterStatus.active) :
    callNext cid s now st =
      (some sel,
       { st with
          queue := st.queue.map (fun t =>
            if t.id == sel.id then
              { t with status := TicketStatus.serving, counterAssigned := some cid,
                       calledAt := some now } else t),
          counters := st.counters.map (fun c =>
            if c.id == cid then { c with currentlyServing := some sel.number } else c) }) := by
  unfold callNext
  rw [hs, hc]
  dsimp only
  rw [if_neg (by simp [ha])]

theorem sortJS_eq_nil_iff (cmp : QueueTicket → QueueTicket → Int) (l : List QueueTicket) :
    sortJS cmp l = [] ↔ l = [] := by
  constructor
  · intro h
    have hp := sortLe_perm (cmpLe cmp) l
    rw [← sortJS_eq_sortLe, h] at hp
    exact hp.symm.eq_nil
  · intro h
    rw [h]
    rfl

/-! ### Claim C2 -/

/-- C2: `callNext` returns `null` when no `waiting` ticket of the requested
service exists; and when such a ticket exists but every counter with the
requested id is missing or not `active`, it returns `null` and leaves the
entire state (queue, counters and services) unchanged — the selected ticket
is not consumed. -/
theorem C2_callNext_failures :
    ∀ (cid : Nat) (s : String) (now : Nat) (st : QueueState),
      (st.queue.filter (fun t => t.serviceType == s && t.status == TicketStatus.waiting) = [] →
        (callNext cid s now st).1 = none)
      ∧ (st.queue.filter (fun t => t.serviceType == s && t.status == TicketStatus.waiting) ≠ [] →
          (∀ c ∈ st.counters, c.id = cid → c.status ≠ CounterStatus.active) →
          callNext cid s now st = (none, st)) := by
  intro cid s now st
  constructor
  · intro h
    rw [callNext_no_waiting h]
  · intro hne hc
    cases hs : sortJS callCompare (st.queue.filter
        (fun t => t.serviceType == s && t.status == TicketStatus.waiting)) with
    | nil => exact absurd ((sortJS_eq_nil_iff _ _).mp hs) hne
    | cons sel rest =>
      cases hfc : st.counters.find? (fun c => c.id == cid) with
      | none => exact callNext_counter_missing hs hfc
      | some ctr =>
        have hmem := List.mem_of_find?_eq_some hfc
        have hid : ctr.id = cid := by
          have := List.find?_some hfc
          simpa using this
        exact callNext_counter_inactive hs hfc (hc ctr hmem hid)

/-- A single waiting `general` ticket, used to instantiate theorems with
hypotheses at a concrete state. -/
def waitingTicket : QueueTicket :=
  { id := "general-10", number := "A001", serviceType := "general",
    status := TicketStatus.waiting, timestamp := 10, counterAssigned := none,
    customerName := none, purpose := none, priority := Priority.normal,
    estimatedWaitTime := some 0, calledAt := none, completedAt := none, notes := none }

/-- Seeded state holding exactly the ticket `waitingTicket`. -/
def oneTicketState : QueueState :=
  { services := seededServices, counters := seededCounters, queue := [waitingTicket] }

theorem C2_witness :
    (callNext 1 "general" 0 seededState).1 = none
    ∧ callNext 3 "general" 0 oneTicketState = (none, oneTicketState) :=
  ⟨(C2_callNext_failures 1 "general" 0 seededState).1 rfl,
   (C2_callNext_failures 3 "general" 0 oneTicketState).2 (by decide) (by decide)⟩

/-! ### The shared success analysis of callNext (claims C3 and C10) -/

theorem callNext_selects {cid : Nat} {s : String} {now : Nat} {st : QueueState} {ctr : Counter}
    (hne : st.queue.filter (fun t => t.serviceType == s && t.status == TicketStatus.waiting) ≠ [])
    (hc : st.counters.find? (fun c => c.id == cid) = some ctr)
    (ha : ctr.status = CounterStatus.active) :
    ∃ sel : QueueTicket,
      (callNext cid s now st).1 = some sel
      ∧ sel ∈ st.queue ∧ sel.status = TicketStatus.waiting ∧ sel.serviceType = s
      ∧ (∀ t ∈ st.queue, t.status = TicketStatus.waiting → t.serviceType = s →
          priorityOrder t.priority ≤ priorityOrder sel.priority
          ∧ (priorityOrder t.priority = priorityOrder sel.priority →
              sel.timestamp ≤ t.timestamp))
      ∧ (callNext cid s now st).2.queue = st.queue.map (fun t =>
          if t.id == sel.id then
            { t with status := TicketStatus.serving, counterAssigned := some cid,
                     calledAt := some now } else t)
      ∧ (callNext cid s now st).2.counters = st.counters.map (fun c =>
          if c.id == cid then { c with currentlyServing := some sel.number } else c)
      ∧ (callNext cid s now st).2.services = st.services := by
  cases hs : sortJS callCompare (st.queue.filter
      (fun t => t.serviceType == s && t.status == TicketStatus.waiting)) with
  | nil => exact absurd ((sortJS_eq_nil_iff _ _).mp hs) hne
  | cons sel rest =>
    have hsel : sel ∈ st.queue.filter
        (fun t => t.serviceType == s && t.status == TicketStatus.waiting) := by
      have hm : sel ∈ sortJS callCompare (st.queue.filter
          (fun t => t.serviceType == s && t.status == TicketStatus.waiting)) := by
        rw [hs]
        exact List.mem_cons_self _ _
      rw [sortJS_eq_sortLe] at hm
      exact (sortLe_perm _ _).mem_iff.mp hm
    have hself := List.mem_filter.mp hsel
    have hsvc : sel.serviceType = s := by
      have := hself.2
      simp only [Bool.and_eq_true, beq_iff_eq] at this
      exact this.1
    have hwait : sel.status = TicketStatus.waiting := by
      have := hself.2
      simp only [Bool.and_eq_true, beq_iff_eq] at this
      exact this.2
    have hmin : ∀ t ∈ st.queue, t.status = TicketStatus.waiting → t.serviceType = s →
        priorityOrder t.priority ≤ priorityOrder sel.priority
        ∧ (priorityOrder t.priority = priorityOrder sel.priority →
            sel.timestamp ≤ t.timestamp) := by
      intro t ht hw hsv
      have htf : t ∈ st.queue.filter
          (fun t => t.serviceType == s && t.status == TicketStatus.waiting) :=
        List.mem_filter.mpr ⟨ht, by simp [hw, hsv]⟩
      have he : sortLe (cmpLe callCompare) (st.queue.filter
          (fun t => t.serviceType == s && t.status == TicketStatus.waiting)) = sel :: rest := by
        rw [← sortJS_eq_sortLe]
        exact hs
      have hle := sortLe_head_min callCmpLe_total callCmpLe_trans callCmpLe_refl he t htf
      rw [callCmpLe_iff] at hle
      omega
    rw [callNext_success hs hc ha]
    exact ⟨sel, rfl, hself.1, hwait, hsvc, hmin, rfl, rfl, rfl⟩

/-! ### Claim C3 -/

/-- C3: when a `waiting` ticket for the service exists and the counter found
for `counterId` is `active`, `callNext` selects a waiting ticket of that
service with maximal priority (vip > urgent > normal) and, among equal
priorities, minimal timestamp; in the resulting state every queue ticket
bearing the selected id is `serving` with `counterAssigned = counterId` and
`calledAt` set to the call instant, every counter with id `counterId` has
`currentlyServing` equal to the ticket's number, and `callNext` returns the
selected ticket. -/
theorem C3_callNext_success :
    ∀ (cid : Nat) (s : String) (now : Nat) (st : QueueState) (ctr : Counter),
      st.queue.filter (fun t => t.serviceType == s && t.status == TicketStatus.waiting) ≠ [] →
      st.counters.find? (fun c => c.id == cid) = some ctr →
      ctr.status = CounterStatus.active →
      ∃ sel : QueueTicket,
        (callNext cid s now st).1 = some sel
        ∧ sel ∈ st.queue ∧ sel.status = TicketStatus.waiting ∧ sel.serviceType = s
        ∧ (∀ t ∈ st.queue, t.status = TicketStatus.waiting → t.serviceType = s →
            priorityOrder t.priority ≤ priorityOrder sel.priority
            ∧ (priorityOrder t.priority = priorityOrder sel.priority →
                sel.timestamp ≤ t.timestamp))
        ∧ (∀ t' ∈ (callNext cid s now st).2.queue, t'.id = sel.id →
            t'.status = TicketStatus.serving ∧ t'.counterAssigned = some cid
              ∧ t'.calledAt = some now)
        ∧ (∀ c' ∈ (callNext cid s now st).2.counters, c'.id = cid →
            c'.currentlyServing = some sel.number) := by
  intro cid s now st ctr hne hc ha
  obtain ⟨sel, h1, h2, h3, h4, h5, hq, hcs, _⟩ := callNext_selects hne hc ha
  refine ⟨sel, h1, h2, h3, h4, h5, ?_, ?_⟩
  · intro t' ht' hid
    rw [hq] at ht'
    obtain ⟨t, htm, rfl⟩ := List.mem_map.mp ht'
    by_cases h : (t.id == sel.id) = true
    · rw [if_pos h]
      exact ⟨rfl, rfl, rfl⟩
    · rw [if_neg h] at hid
      exact absurd (by simp [hid]) h
  · intro c' hc' hid
    rw [hcs] at hc'
    obtain ⟨c, hcm, rfl⟩ := List.mem_map.mp hc'
    by_cases h : (c.id == cid) = true
    · rw [if_pos h]
    · rw [if_neg h] at hid
      exact absurd (by simp [hid]) h

theorem C3_witness :
    ∃ sel : QueueTicket,
      (callNext 1 "general" 20 oneTicketState).1 = some sel
      ∧ sel ∈ oneTicketState.queue ∧ sel.status = TicketStatus.waiting
      ∧ sel.serviceType = "general"
      ∧ (∀ t ∈ oneTicketState.queue, t.status = TicketStatus.waiting →
          t.serviceType = "general" →
          priorityOrder t.priority ≤ priorityOrder sel.priority
          ∧ (priorityOrder t.priority = priorityOrder sel.priority →
              sel.timestamp ≤ t.timestamp))
      ∧ (∀ t' ∈ (callNext 1 "general" 20 oneTicketState).2.queue, t'.id = sel.id →
          t'.status = TicketStatus.serving ∧ t'.counterAssigned = some 1
            ∧ t'.calledAt = some 20)
      ∧ (∀ c' ∈ (callNext 1 "general" 20 oneTicketState).2.counters, c'.id = 1 →
          c'.currentlyServing = some sel.number) :=
  C3_callNext_success 1 "general" 20 oneTicketState
    { id := 1, name := "Counter 1", status := CounterStatus.active,
      currentlyServing := none, serviceType := none }
    (by decide) (by decide) rfl

/-! ### Claim C10 -/

/-- C10: `callNext` never consults the counter's own `serviceType` field or
its `currentlyServing` field: whenever the counter found for `counterId` is
`active` and a `waiting` ticket for the *argument* service type exists, the
call succeeds — there is no hypothesis about the counter's assigned service
or about its current ticket — and every counter with that id gets its
`currentlyServing` overwritten with the selected ticket's number. -/
theorem C10_callNext_ignores_counter_fields :
    ∀ (cid : Nat) (s : String) (now : Nat) (st : QueueState) (ctr : Counter),
      st.counters.find? (fun c => c.id == cid) = some ctr →
      ctr.status = CounterStatus.active →
      st.queue.filter (fun t => t.serviceType == s && t.status == TicketStatus.waiting) ≠ [] →
      ∃ sel : QueueTicket,
        (callNext cid s now st).1 = some sel
        ∧ sel.serviceType = s
        ∧ (∀ c' ∈ (callNext cid s now st).2.counters, c'.id = cid →
            c'.currentlyServing = some sel.number) := by
  intro cid s now st ctr hc ha hne
  obtain ⟨sel, h1, _, _, hsvc, _, _, hcs, _⟩ := callNext_selects hne hc ha
  refine ⟨sel, h1, hsvc, ?_⟩
  intro c' hc' hid
  rw [hcs] at hc'
  obtain ⟨c, hcm, rfl⟩ := List.mem_map.mp hc'
  by_cases h : (c.id == cid) = true
  · rw [if_pos h]
  · rw [if_neg h] at hid
    exact absurd (by simp [hid]) h

/-- A counter assigned to the `facility` service and already showing a
served ticket, while a `general` ticket is waiting: used to witness that
`callNext` ignores both counter fields. -/
def mismatchCounterState : QueueState :=
  { services := seededServices,
    counters := [{ id := 1, name := "Counter 1", status := CounterStatus.active,
                   currentlyServing := some "D001", serviceType := some "facility" }],
    queue := [waitingTicket] }

theorem C10_witness :
    ∃ sel : QueueTicket,
      (callNext 1 "general" 20 mismatchCounterState).1 = some sel
      ∧ sel.serviceType = "general"
      ∧ (∀ c' ∈ (callNext 1 "general" 20 mismatchCounterState).2.counters, c'.id = 1 →
          c'.currentlyServing = some sel.number) :=
  C10_callNext_ignores_counter_fields 1 "general" 20 mismatchCounterState
    { id := 1, name := "Counter 1", status := CounterStatus.active,
      currentlyServing := some "D001", serviceType := some "facility" }
    (by decide) rfl (by decide)

/-! ### Unfolding lemmas for completeService -/

theorem completeService_not_found {tid : String} {notes : Option String} {now : Nat}
    {st : QueueState} (h : st.queue.find? (fun t => t.id == tid) = none) :
    completeService tid notes now st = st := by
  unfold completeService
  rw [h]

theorem completeService_not_serving {tid : String} {notes : Option String} {now : Nat}
    {st : QueueState} {t : QueueTicket}
    (h : st.queue.find? (fun t' => t'.id == tid) = some t)
    (hs : t.status ≠ TicketStatus.serving) :
    completeService tid notes now st = st := by
  unfold completeService
  rw [h]
  dsimp only
  rw [if_pos hs]

theorem completeService_serving_truthy {tid : String} {notes : Option String} {now : Nat}
    {st : QueueState} {t : QueueTicket}
    (h : st.queue.find? (fun t' => t'.id == tid) = some t)
    (hs : t.status = TicketStatus.serving)
    (ht : truthyCounterId t.counterAssigned = true) :
    completeService tid notes now st =
      { st with
         queue := st.queue.map (fun x =>
           if x.id == tid then
             { x with status := TicketStatus.completed, completedAt := some now,
                      notes := notes } else x),
         counters := st.counters.map (fun c =>
           if t.counterAssigned == some c.id then { c with currentlyServing := none } else c),
         services := st.services.map (fun sv =>
           if sv.id == t.serviceType then { sv with served := sv.served + 1 } else sv) } := by
  unfold completeService
  rw [h]
  dsimp only
  rw [if_neg (by simp [hs]), if_pos ht]

theorem completeService_serving_falsy {tid : String} {notes : Option String} {now : Nat}
    {st : QueueState} {t : QueueTicket}
    (h : st.queue.find? (fun t' => t'.id == tid) = some t)
    (hs : t.status = TicketStatus.serving)
    (ht : truthyCounterId t.counterAssigned = false) :
    completeService tid notes now st =
      { st with
         queue := st.queue.map (fun x =>
           if x.id == tid then
             { x with status := TicketStatus.completed, completedAt := some now,
                      notes := notes } else x) } := by
  unfold completeService
  rw [h]
  dsimp only
  rw [if_neg (by simp [hs]), if_neg (by simp [ht])]

/-! ### Claim C4 -/

/-- C4 (amended): `completeService` leaves the state unchanged when the
ticket is absent or not `serving`; otherwise it completes every queue ticket
bearing the id (recording `completedAt` and `notes`), and exactly when the
ticket's `counterAssigned` is present *and nonzero* (the JavaScript test
`if (ticket.counterAssigned)` treats counter id 0 like absence) it clears
the matching counter's `currentlyServing` and increments the owning
service's `served`, while otherwise counters and services are unchanged. -/
theorem C4_completeService :
    ∀ (tid : String) (notes : Option String) (now : Nat) (st : QueueState),
      (st.queue.find? (fun t' => t'.id == tid) = none →
        completeService tid notes now st = st)
      ∧ (∀ t, st.queue.find? (fun t' => t'.id == tid) = some t →
          t.status ≠ TicketStatus.serving → completeService tid notes now st = st)
      ∧ (∀ t, st.queue.find? (fun t' => t'.id == tid) = some t →
          t.status = TicketStatus.serving →
          (completeService tid notes now st).queue = st.queue.map (fun x =>
            if x.id == tid then
              { x with status := TicketStatus.completed, completedAt := some now,
                       notes := notes } else x)
          ∧ (truthyCounterId t.counterAssigned = true →
              (completeService tid notes now st).counters = st.counters.map (fun c =>
                if t.counterAssigned == some c.id then
                  { c with currentlyServing := none } else c)
              ∧ (completeService tid notes now st).services = st.services.map (fun sv =>
                  if sv.id == t.serviceType then { sv with served := sv.served + 1 } else sv))
          ∧ (truthyCounterId t.counterAssigned = false →
              (completeService tid notes now st).counters = st.counters
              ∧ (completeService tid notes now st).services = st.services)) := by
  intro tid notes now st
  refine ⟨fun h => completeService_not_found h,
          fun t h hs => completeService_not_serving h hs,
          fun t h hs => ?_⟩
  cases ht : truthyCounterId t.counterAssigned with
  | true =>
    rw [completeService_serving_truthy h hs ht]
    exact ⟨rfl, fun _ => ⟨rfl, rfl⟩, fun hf => by simp at hf⟩
  | false =>
    rw [completeService_serving_falsy h hs ht]
    exact ⟨rfl, fun hf => by simp at hf, fun _ => ⟨rfl, rfl⟩⟩

/-- A `serving` ticket whose `counterAssigned` is the (falsy) counter id 0. -/
def zeroCounterTicket : QueueTicket :=
  { id := "general-7", number := "A001", serviceType := "general",
    status := TicketStatus.serving, timestamp := 7, counterAssigned := some 0,
    customerName := none, purpose := none, priority := Priority.normal,
    estimatedWaitTime := some 0, calledAt := some 8, completedAt := none, notes := none }

/-- Seeded state holding exactly `zeroCounterTicket`. -/
def zeroCounterState : QueueState :=
  { services := seededServices, counters := seededCounters, queue := [zeroCounterTicket] }

/-- C4 counterexample: the completed ticket *has* a `counterAssigned`
(`some 0`), yet the services (in particular the `served` statistics, still
0 everywhere) and the counters are left unchanged, because the JavaScript
truthiness test treats counter id 0 like absence; this falsifies the
claim's "exactly when the ticket has a counterAssigned". -/
theorem C4_counterexample :
    zeroCounterTicket.counterAssigned = some 0
    ∧ (completeService "general-7" none 9 zeroCounterState).queue.map (fun t => t.status)
        = [TicketStatus.completed]
    ∧ (completeService "general-7" none 9 zeroCounterState).services = seededServices
    ∧ (completeService "general-7" none 9 zeroCounterState).counters = seededCounters := by
  decide

/-- A `serving` ticket assigned to counter 1. -/
def servingTicket : QueueTicket :=
  { id := "general-5", number := "A001", serviceType := "general",
    status := TicketStatus.serving, timestamp := 5, counterAssigned := some 1,
    customerName := none, purpose := none, priority := Priority.normal,
    estimatedWaitTime := some 0, calledAt := some 6, completedAt := none, notes := none }

/-- Seeded state holding exactly `servingTicket`. -/
def servingState : QueueState :=
  { services := seededServices, counters := seededCounters, queue := [servingTicket] }

theorem C4_witness :
    ((completeService "general-5" (some "done") 9 servingState).queue =
        servingState.queue.map (fun x =>
          if x.id == "general-5" then
            { x with status := TicketStatus.completed, completedAt := some 9,
                     notes := some "done" } else x))
    ∧ ((completeService "general-5" (some "done") 9 servingState).counters =
        servingState.counters.map (fun c =>
          if servingTicket.counterAssigned == some c.id then
            { c with currentlyServing := none } else c))
    ∧ ((completeService "general-5" (some "done") 9 servingState).services =
        servingState.services.map (fun sv =>
          if sv.id == servingTicket.serviceType then
            { sv with served := sv.served + 1 } else sv))
    ∧ completeService "nope" none 9 servingState = servingState := by
  have h := (C4_completeService "general-5" (some "done") 9 servingState).2.2
    servingTicket (by decide) rfl
  exact ⟨h.1, (h.2.1 (by decide)).1, (h.2.1 (by decide)).2,
    (C4_completeService "nope" none 9 servingState).1 (by decide)⟩

/-! ### Claim C7 -/

theorem find?_map_preserving_id (l : List ServiceType) (s : String) (f : ServiceType → ServiceType)
    (hid : ∀ x, (f x).id = x.id) :
    (l.map f).find? (fun x => x.id == s) = Option.map f (l.find? (fun x => x.id == s)) := by
  induction l with
  | nil => rfl
  | cons a l ih =>
    rw [List.map_cons, List.find?_cons, List.find?_cons, hid a]
    cases h : (a.id == s) <;> simp [h, ih]

/-- C7: a successful `addToQueue` for a known service returns the service's
prefix followed by `currentNumber + 1` zero-padded to three digits, advances
the service record's `currentNumber` by one (so numeric parts of successive
issued numbers strictly increase), and puts a `waiting` ticket bearing that
number into the queue; with an unknown service type it returns the empty
string and leaves the state completely unchanged (no ticket is created). -/
theorem C7_ticket_numbers :
    ∀ (s : String) (cn pp : Option String) (pr : Priority) (now : Nat) (st : QueueState),
      (∀ sv, st.services.find? (fun x => x.id == s) = some sv →
        (addToQueue s cn pp pr now st).1 = sv.pfx ++ padStart3 (toString (sv.currentNumber + 1))
        ∧ (addToQueue s cn pp pr now st).2.services.find? (fun x => x.id == s)
            = some { sv with currentNumber := sv.currentNumber + 1 }
        ∧ ∃ tk ∈ (addToQueue s cn pp pr now st).2.queue,
            tk.number = sv.pfx ++ padStart3 (toString (sv.currentNumber + 1))
            ∧ tk.status = TicketStatus.waiting)
      ∧ (st.services.find? (fun x => x.id == s) = none →
          addToQueue s cn pp pr now st = ("", st)) := by
  intro s cn pp pr now st
  constructor
  · intro sv h
    have hid : ∀ x : ServiceType,
        ((fun x => if x.id == s then { x with currentNumber := sv.currentNumber + 1 } else x) x).id
          = x.id := by
      intro x
      dsimp only
      by_cases hx : (x.id == s) = true
      · rw [if_pos hx]
      · rw [if_neg hx]
    refine ⟨?_, ?_, ?_⟩
    · rw [addToQueue_some h]
    · rw [addToQueue_some h]
      dsimp only
      rw [find?_map_preserving_id _ _ _ hid, h, Option.map_some']
      rw [if_pos (List.find?_some h)]
    · rw [addToQueue_some h]
      dsimp only
      rw [sortJS_eq_sortLe]
      exact ⟨_, (mem_sortLe _ _ _).mpr (List.mem_append_right _ (List.mem_singleton_self _)),
        rfl, rfl⟩
  · intro h
    exact addToQueue_none h

theorem C7_witness :
    (addToQueue "general" none none Priority.normal 5 seededState).1 = "A001"
    ∧ (addToQueue "general" none none Priority.normal 5 seededState).2.services.find?
        (fun x => x.id == "general")
        = some { id := "general", name := "Pelayanan Umum", pfx := "A",
                 currentNumber := 1, served := 0, waiting := 0 }
    ∧ addToQueue "zzz" none none Priority.normal 5 seededState = ("", seededState) := by
  have h := (C7_ticket_numbers "general" none none Priority.normal 5 seededState).1
    { id := "general", name := "Pelayanan Umum", pfx := "A",
      currentNumber := 0, served := 0, waiting := 0 } (by decide)
  exact ⟨h.1.trans (by decide), h.2.1, (C7_ticket_numbers "zzz" none none Priority.normal 5
    seededState).2 (by decide)⟩

/-! ### Claim C8 -/

/-- The spec-side count, written from the spec's words: "the number of
Queue entries with `serviceType = s, status = waiting`" (compared against
the implementation's `getWaitingCount` and the cached `waiting` field). -/
def waitingCountSpec (s : String) (q : List QueueTicket) : Nat :=
  (q.filter (fun t => decide (t.serviceType = s ∧ t.status = TicketStatus.waiting))).length

theorem zip_map_any_false {α β : Type} {l : List α} {f : α → β} {p : α × β → Bool}
    (h : (l.zip (l.map f)).any p = false) : ∀ a ∈ l, p (a, f a) = false := by
  induction l with
  | nil => intro a ha; cases ha
  | cons a l ih =>
    intro b hb
    rw [List.map_cons, List.zip_cons_cons, List.any_cons, Bool.or_eq_false_iff] at h
    rcases List.mem_cons.mp hb with rfl | hbl
    · exact h.1
    · exact ih h.2 b hbl

theorem recomputeWaiting_queue (st : QueueState) : (recomputeWaiting st).queue = st.queue := by
  unfold recomputeWaiting
  dsimp only
  split <;> rfl

theorem recomputeWaiting_counters (st : QueueState) :
    (recomputeWaiting st).counters = st.counters := by
  unfold recomputeWaiting
  dsimp only
  split <;> rfl

theorem recomputeWaiting_counts (st : QueueState) :
    ∀ sv ∈ (recomputeWaiting st).services,
      sv.waiting = (st.queue.filter (fun t =>
        t.serviceType == sv.id && t.status == TicketStatus.waiting)).length := by
  unfold recomputeWaiting
  dsimp only
  split
  · intro sv hsv
    obtain ⟨s0, hs0, rfl⟩ := List.mem_map.mp hsv
    rfl
  · rename_i hchanged
    intro sv hsv
    have h0 := Bool.eq_false_iff.mpr hchanged
    have := zip_map_any_false h0 sv hsv
    simpa using this

/-- C8: `getWaitingCount s` always equals the number of queue entries with
`serviceType = s` and status `waiting`; and once the derived-value
recomputation (`recomputeWaiting`, the effect that settles after any
mutation) has run, every service record's cached `waiting` field equals
that same count. -/
theorem C8_waiting_counts :
    ∀ (st : QueueState) (s : String),
      getWaitingCount s st = waitingCountSpec s st.queue
      ∧ ∀ sv ∈ (recomputeWaiting st).services,
          sv.waiting = waitingCountSpec sv.id (recomputeWaiting st).queue := by
  intro st s
  constructor
  · unfold getWaitingCount waitingCountSpec
    congr 1
    apply List.filter_congr
    intro x _
    rw [Bool.eq_iff_iff]
    simp [Bool.and_eq_true]
  · intro sv hsv
    rw [recomputeWaiting_queue]
    rw [recomputeWaiting_counts st sv hsv]
    unfold waitingCountSpec
    congr 1
    apply List.filter_congr
    intro x _
    rw [Bool.eq_iff_iff]
    simp [Bool.and_eq_true]

theorem C8_witness :
    getWaitingCount "general" oneTicketState = waitingCountSpec "general" oneTicketState.queue
    ∧ ({ id := "general", name := "Pelayanan Umum", pfx := "A", currentNumber := 0,
         served := 0, waiting := 1 } : ServiceType).waiting
        = waitingCountSpec
            ({ id := "general", name := "Pelayanan Umum", pfx := "A", currentNumber := 0,
               served := 0, waiting := 1 } : ServiceType).id
            (recomputeWaiting oneTicketState).queue :=
  ⟨(C8_waiting_counts oneTicketState "general").1,
   (C8_waiting_counts oneTicketState "general").2 _ (by decide)⟩

/-! ### Claim C6 -/

/-- One forward step of the ticket lifecycle: unchanged, `waiting → serving`
or `serving → completed` (no reverse step, no skipping). -/
def forwardStep (a b : TicketStatus) : Prop :=
  a = b ∨ (a = TicketStatus.waiting ∧ b = TicketStatus.serving)
    ∨ (a = TicketStatus.serving ∧ b = TicketStatus.completed)

theorem completeService_serving_queue {tid : String} {notes : Option String} {now : Nat}
    {st : QueueState} {t : QueueTicket}
    (h : st.queue.find? (fun t' => t'.id == tid) = some t)
    (hs : t.status = TicketStatus.serving) :
    (completeService tid notes now st).queue = st.queue.map (fun x =>
      if x.id == tid then
        { x with status := TicketStatus.completed, completedAt := some now,
                 notes := notes } else x) := by
  cases ht : truthyCounterId t.counterAssigned with
  | true => rw [completeService_serving_truthy h hs ht]
  | false => rw [completeService_serving_falsy h hs ht]

/-- C6 (amended): on states whose queue has pairwise-distinct ticket ids —
before and after the operation, as the data model's "id (unique)" promises
(the after-side also rules out a collision of the freshly generated id) —
every public operation other than `updateTicket` only moves ticket statuses
forward: every ticket of the resulting queue either descends from a ticket
with the same id by a forward step (`waiting → serving → completed`, never
backward and never `waiting → completed` in one step) or is a freshly
created `waiting` ticket whose id occurred nowhere in the previous queue.
`updateTicket` itself can set `status` arbitrarily. -/
theorem C6_forward_transitions :
    ∀ (op : Op) (st : QueueState),
      (∀ (tid : String) (p : TicketPatch), op ≠ Op.update tid p) →
      (st.queue.map (fun t => t.id)).Nodup →
      ((applyOp op st).queue.map (fun t => t.id)).Nodup →
      ∀ t' ∈ (applyOp op st).queue,
        (∃ t ∈ st.queue, t.id = t'.id ∧ forwardStep t.status t'.status)
        ∨ (t'.status = TicketStatus.waiting ∧ ∀ t ∈ st.queue, t.id ≠ t'.id) := by
  intro op st hop hnd hnd'
  cases op with
  | add s cn pp pr now =>
    intro t' ht'
    simp only [applyOp] at ht'
    cases h : st.services.find? (fun x => x.id == s) with
    | none =>
      rw [addToQueue_none h] at ht'
      exact Or.inl ⟨t', ht', rfl, Or.inl rfl⟩
    | some sv =>
      rw [addToQueue_some h] at ht'
      dsimp only at ht'
      rw [sortJS_eq_sortLe] at ht'
      rcases List.mem_append.mp ((sortLe_perm _ _).mem_iff.mp ht') with h1 | h2
      · exact Or.inl ⟨t', h1, rfl, Or.inl rfl⟩
      · have ht'eq := List.mem_singleton.mp h2
        subst ht'eq
        refine Or.inr ⟨rfl, ?_⟩
        simp only [applyOp] at hnd'
        rw [addToQueue_some h] at hnd'
        dsimp only at hnd'
        rw [sortJS_eq_sortLe] at hnd'
        have hnd2 :=
          (List.Perm.map (fun t : QueueTicket => t.id)
            (sortLe_perm (cmpLe queueCompare) _)).nodup hnd'
        rw [List.map_append] at hnd2
        have hdisj := List.disjoint_of_nodup_append hnd2
        intro t ht heq
        exact hdisj (List.mem_map.mpr ⟨t, ht, rfl⟩) (by simp [heq])
  | call cid s now =>
    intro t' ht'
    simp only [applyOp] at ht'
    cases hs : sortJS callCompare (st.queue.filter
        (fun t => t.serviceType == s && t.status == TicketStatus.waiting)) with
    | nil =>
      rw [callNext_no_waiting ((sortJS_eq_nil_iff _ _).mp hs)] at ht'
      exact Or.inl ⟨t', ht', rfl, Or.inl rfl⟩
    | cons sel rest =>
      cases hfc : st.counters.find? (fun c => c.id == cid) with
      | none =>
        rw [callNext_counter_missing hs hfc] at ht'
        exact Or.inl ⟨t', ht', rfl, Or.inl rfl⟩
      | some ctr =>
        by_cases ha : ctr.status = CounterStatus.active
        · have hsel : sel ∈ st.queue.filter
              (fun t => t.serviceType == s && t.status == TicketStatus.waiting) := by
            have hs' := hs
            rw [sortJS_eq_sortLe] at hs'
            have hm : sel ∈ sortLe (cmpLe callCompare) (st.queue.filter
                (fun t => t.serviceType == s && t.status == TicketStatus.waiting)) := by
              rw [hs']
              exact List.mem_cons_self _ _
            exact (sortLe_perm _ _).mem_iff.mp hm
          have hselq : sel ∈ st.queue := (List.mem_filter.mp hsel).1
          have hselw : sel.status = TicketStatus.waiting := by
            have := (List.mem_filter.mp hsel).2
            simp only [Bool.and_eq_true, beq_iff_eq] at this
            exact this.2
          rw [callNext_success hs hfc ha] at ht'
          dsimp only at ht'
          obtain ⟨t, htm, rfl⟩ := List.mem_map.mp ht'
          by_cases hidm : (t.id == sel.id) = true
          · have hteq : t = sel :=
              List.inj_on_of_nodup_map hnd htm hselq (by simpa using hidm)
            left
            refine ⟨t, htm, ?_, ?_⟩
            · rw [if_pos hidm]
            · rw [if_pos hidm]
              exact Or.inr (Or.inl ⟨hteq ▸ hselw, rfl⟩)
          · left
            refine ⟨t, htm, ?_, ?_⟩
            · rw [if_neg hidm]
            · rw [if_neg hidm]
              exact Or.inl rfl
        · rw [callNext_counter_inactive hs hfc ha] at ht'
          exact Or.inl ⟨t', ht', rfl, Or.inl rfl⟩
  | complete tid notes now =>
    intro t' ht'
    simp only [applyOp] at ht'
    cases h : st.queue.find? (fun t0 => t0.id == tid) with
    | none =>
      rw [completeService_not_found h] at ht'
      exact Or.inl ⟨t', ht', rfl, Or.inl rfl⟩
    | some t0 =>
      by_cases hs : t0.status = TicketStatus.serving
      · have ht0q : t0 ∈ st.queue := List.mem_of_find?_eq_some h
        have ht0id : (t0.id == tid) = true := by
          have := List.find?_some h
          simpa using this
        rw [completeService_serving_queue h hs] at ht'
        obtain ⟨t, htm, rfl⟩ := List.mem_map.mp ht'
        by_cases hidm : (t.id == tid) = true
        · have hteq : t = t0 := by
            refine List.inj_on_of_nodup_map hnd htm ht0q ?_
            have h1 : t.id = tid := by simpa using hidm
            have h2 : t0.id = tid := by simpa using ht0id
            rw [h1, h2]
          left
          refine ⟨t, htm, ?_, ?_⟩
          · rw [if_pos hidm]
          · rw [if_pos hidm]
            exact Or.inr (Or.inr ⟨hteq ▸ hs, rfl⟩)
        · left
          refine ⟨t, htm, ?_, ?_⟩
          · rw [if_neg hidm]
          · rw [if_neg hidm]
            exact Or.inl rfl
      · rw [completeService_not_serving h hs] at ht'
        exact Or.inl ⟨t', ht', rfl, Or.inl rfl⟩
  | setStatus cid status =>
    intro t' ht'
    simp only [applyOp, setCounterStatus] at ht'
    exact Or.inl ⟨t', ht', rfl, Or.inl rfl⟩
  | setService cid s =>
    intro t' ht'
    simp only [applyOp, setCounterService] at ht'
    exact Or.inl ⟨t', ht', rfl, Or.inl rfl⟩
  | update tid p => exact absurd rfl (hop tid p)
  | clear =>
    intro t' ht'
    simp only [applyOp, clearAllData] at ht'
    cases ht'

/-- The `updateTicket` argument `{ status: "waiting" }`. -/
def backwardPatch : TicketPatch :=
  { id := none, number := none, serviceType := none,
    status := some TicketStatus.waiting, timestamp := none, counterAssigned := none,
    customerName := none, purpose := none, priority := none, estimatedWaitTime := none,
    calledAt := none, completedAt := none, notes := none }

/-- The state reached from the seeded state by `addToQueue("general")` at
instant 1 and `callNext(1, "general")` at instant 2: its single ticket is
`serving`. -/
def c6ServingState : QueueState :=
  applyOp (Op.call 1 "general" 2) (applyOp (Op.add "general" none none Priority.normal 1) seededState)

/-- C6 counterexample: from the seeded state, `addToQueue` then `callNext`
produce a `serving` ticket, and the public operation
`updateTicket("general-1", { status: "waiting" })` moves it back to
`waiting` — a reverse transition, falsifying the claim. -/
theorem C6_counterexample :
    c6ServingState.queue.map (fun t => t.status) = [TicketStatus.serving]
    ∧ (applyOp (Op.update "general-1" backwardPatch) c6ServingState).queue.map
        (fun t => t.status) = [TicketStatus.waiting] := by
  decide

/-- The ticket created by `addToQueue("general")` at instant 1 from the
seeded state. -/
def firstGeneralTicket : QueueTicket :=
  { id := "general-1", number := "A001", serviceType := "general",
    status := TicketStatus.waiting, timestamp := 1, counterAssigned := none,
    customerName := none, purpose := none, priority := Priority.normal,
    estimatedWaitTime := some 0, calledAt := none, completedAt := none,
    notes := none }

theorem C6_witness :
    (∃ t ∈ seededState.queue,
        t.id = firstGeneralTicket.id ∧ forwardStep t.status firstGeneralTicket.status)
    ∨ (firstGeneralTicket.status = TicketStatus.waiting
        ∧ ∀ t ∈ seededState.queue, t.id ≠ firstGeneralTicket.id) :=
  C6_forward_transitions (Op.add "general" none none Priority.normal 1) seededState
    (fun tid p h => Op.noConfusion h) (by decide) (by decide) firstGeneralTicket (by decide)

/-! ### Claim C9 -/

theorem findIdx_split {α : Type} (p : α → Bool) (t : α) :
    ∀ w : List α, t ∈ w → p t = true → (∀ x ∈ w, p x = true → x = t) →
      ∃ u v, w = u ++ t :: v ∧ w.findIdx p = u.length ∧ ∀ x ∈ u, p x = false := by
  intro w
  induction w with
  | nil => intro hm _ _; cases hm
  | cons b w ih =>
    intro hm hp hu
    by_cases hb : p b = true
    · have hbt : b = t := hu b (List.mem_cons_self _ _) hb
      subst hbt
      exact ⟨[], w, rfl, by simp [List.findIdx_cons, hb],
        fun x hx => absurd hx (List.not_mem_nil x)⟩
    · have hbf : p b = false := Bool.eq_false_iff.mpr hb
      have hm' : t ∈ w := by
        rcases List.mem_cons.mp hm with rfl | h
        · exact absurd hp hb
        · exact h
      obtain ⟨u, v, hw, hidx, hup⟩ :=
        ih hm' hp (fun x hx hpx => hu x (List.mem_cons_of_mem _ hx) hpx)
      refine ⟨b :: u, v, ?_, ?_, ?_⟩
      · rw [hw]
        rfl
      · simp [List.findIdx_cons, hbf, hidx]
      · intro x hx
        rcases List.mem_cons.mp hx with rfl | h
        · exact hbf
        · exact hup x h

theorem getTicketPosition_not_found {tid : String} {st : QueueState}
    (h : st.queue.find? (fun t => t.id == tid) = none) :
    getTicketPosition tid st = none := by
  unfold getTicketPosition
  rw [h]

theorem getTicketPosition_not_waiting {tid : String} {st : QueueState} {t : QueueTicket}
    (h : st.queue.find? (fun t' => t'.id == tid) = some t)
    (hw : t.status ≠ TicketStatus.waiting) :
    getTicketPosition tid st = none := by
  unfold getTicketPosition
  rw [h]
  dsimp only
  rw [if_pos hw]

theorem getTicketPosition_waiting {tid : String} {st : QueueState} {t : QueueTicket}
    (h : st.queue.find? (fun t' => t'.id == tid) = some t)
    (hw : t.status = TicketStatus.waiting) :
    getTicketPosition tid st =
      some ((sortJS tsCompare (st.queue.filter (fun x =>
          x.serviceType == t.serviceType && x.status == TicketStatus.waiting))).findIdx
        (fun x => x.id == tid) + 1) := by
  unfold getTicketPosition
  rw [h]
  dsimp only
  rw [if_neg (by simp [hw])]

/-- C9: on states with pairwise-distinct ticket ids (the data model's "id
(unique)"), `getTicketPosition` returns `none` when the ticket is absent or
not `waiting`; otherwise it returns a 1-based rank `k` of that ticket among
the `waiting` tickets of the same service ordered by creation timestamp
ascending only: the number of such tickets with strictly earlier timestamp
is `< k`, and `k` is at most the number of such tickets with timestamp `≤`
the ticket's own — priorities play no role, unlike in `callNext`. -/
theorem C9_ticket_position :
    ∀ (tid : String) (st : QueueState),
      (st.queue.map (fun t => t.id)).Nodup →
      (st.queue.find? (fun t' => t'.id == tid) = none → getTicketPosition tid st = none)
      ∧ (∀ t, st.queue.find? (fun t' => t'.id == tid) = some t →
          t.status ≠ TicketStatus.waiting → getTicketPosition tid st = none)
      ∧ (∀ t, st.queue.find? (fun t' => t'.id == tid) = some t →
          t.status = TicketStatus.waiting →
          ∃ k, getTicketPosition tid st = some k
            ∧ st.queue.countP (fun x => x.serviceType == t.serviceType
                && x.status == TicketStatus.waiting
                && decide (x.timestamp < t.timestamp)) < k
            ∧ k ≤ st.queue.countP (fun x => x.serviceType == t.serviceType
                && x.status == TicketStatus.waiting
                && decide (x.timestamp ≤ t.timestamp))) := by
  intro tid st hnd
  refine ⟨fun h => getTicketPosition_not_found h,
          fun t h hw => getTicketPosition_not_waiting h hw,
          fun t h hw => ?_⟩
  have htid : t.id = tid := by
    have := List.find?_some h
    simpa using this
  have htmem : t ∈ st.queue := List.mem_of_find?_eq_some h
  have htf : t ∈ st.queue.filter (fun x =>
      x.serviceType == t.serviceType && x.status == TicketStatus.waiting) :=
    List.mem_filter.mpr ⟨htmem, by simp [hw]⟩
  have htW : t ∈ sortLe (cmpLe tsCompare) (st.queue.filter (fun x =>
      x.serviceType == t.serviceType && x.status == TicketStatus.waiting)) :=
    (sortLe_perm _ _).mem_iff.mpr htf
  have huq : ∀ x ∈ sortLe (cmpLe tsCompare) (st.queue.filter (fun x =>
      x.serviceType == t.serviceType && x.status == TicketStatus.waiting)),
      (x.id == tid) = true → x = t := by
    intro x hx hpx
    have hxq : x ∈ st.queue := (List.mem_filter.mp ((sortLe_perm _ _).mem_iff.mp hx)).1
    refine List.inj_on_of_nodup_map hnd hxq htmem ?_
    have h1 : x.id = tid := by simpa using hpx
    rw [h1, htid]
  obtain ⟨u, v, hsplit, hidx, hup⟩ :=
    findIdx_split (fun x => x.id == tid) t _ htW (by simp [htid]) huq
  have hpw := pairwise_sortLe tsCmpLe_total tsCmpLe_trans (st.queue.filter (fun x =>
      x.serviceType == t.serviceType && x.status == TicketStatus.waiting))
  rw [hsplit] at hpw
  obtain ⟨hpu, hptv, hcross⟩ := List.pairwise_append.mp hpw
  have e2 : ∀ q : QueueTicket → Bool,
      (st.queue.filter (fun x =>
        x.serviceType == t.serviceType && x.status == TicketStatus.waiting)).countP q
      = (u ++ t :: v).countP q := by
    intro q
    rw [← hsplit]
    exact ((sortLe_perm _ _).countP_eq q).symm
  have e1 : ∀ q : QueueTicket → Bool,
      st.queue.countP (fun x => x.serviceType == t.serviceType
        && x.status == TicketStatus.waiting && q x)
      = (st.queue.filter (fun x =>
          x.serviceType == t.serviceType && x.status == TicketStatus.waiting)).countP q := by
    intro q
    rw [List.countP_filter]
    apply List.countP_congr
    intro x _
    simp only [Bool.and_eq_true]
    tauto
  refine ⟨u.length + 1, ?_, ?_, ?_⟩
  · rw [getTicketPosition_waiting h hw, sortJS_eq_sortLe, hidx]
  · rw [e1, e2, List.countP_append, List.countP_cons]
    have hv : v.countP (fun x => decide (x.timestamp < t.timestamp)) = 0 := by
      apply List.countP_eq_zero.mpr
      intro x hx
      have hx' := (List.pairwise_cons.mp hptv).1 x hx
      rw [tsCmpLe_iff] at hx'
      simp only [decide_eq_true_eq]
      omega
    rw [hv]
    have hule := @List.countP_le_length QueueTicket
      (fun x => decide (x.timestamp < t.timestamp)) u
    simp only [decide_eq_true_eq]
    rw [if_neg (Nat.lt_irrefl _)]
    omega
  · rw [e1, e2, List.countP_append, List.countP_cons]
    have hu_full : u.countP (fun x => decide (x.timestamp ≤ t.timestamp)) = u.length := by
      apply List.countP_eq_length.mpr
      intro x hx
      have hx' := hcross x hx t (List.mem_cons_self _ _)
      rw [tsCmpLe_iff] at hx'
      simpa using hx'
    rw [hu_full]
    simp only [decide_eq_true_eq]
    rw [if_pos (Nat.le_refl _)]
    omega

theorem C9_witness :
    (getTicketPosition "absent" oneTicketState = none)
    ∧ ∃ k, getTicketPosition "general-10" oneTicketState = some k
        ∧ oneTicketState.queue.countP (fun x =>
            x.serviceType == waitingTicket.serviceType
            && x.status == TicketStatus.waiting
            && decide (x.timestamp < waitingTicket.timestamp)) < k
        ∧ k ≤ oneTicketState.queue.countP (fun x =>
            x.serviceType == waitingTicket.serviceType
            && x.status == TicketStatus.waiting
            && decide (x.timestamp ≤ waitingTicket.timestamp)) :=
  ⟨(C9_ticket_position "absent" oneTicketState (by decide)).1 (by decide),
   (C9_ticket_position "general-10" oneTicketState (by decide)).2.2
     waitingTicket (by decide) rfl⟩

end QueueApp
